import Mathlib

/-!
# Verification of the auditor utility module

Shallow embedding of the repository's utility module (compiled module
`utils`, functions `read_csv`, `write_csv`, `read_json`, `str_to_time`,
`daytime`, `get_for_id`) together with proofs of the specified properties.

Python `datetime` values are modelled by `PyDateTime` (calendar fields plus
an optional UTC offset in minutes standing for `tzinfo`); Python `dict`
values coming from JSON are modelled by `Json`; Python exceptions are
modelled by `Except PyErr`.  The external libraries the module calls are
modelled by explicit parameters: `dateutil.parser.parse` by a
`String → Option PyDateTime` argument, and the `pytz` timezone database by a
`TZEnv` mapping zone names to offset rules.
-/

/-- Calendar/clock value standing for a Python `datetime.datetime`:
date and time-of-day fields plus `tz`, the attached UTC offset in minutes
(`none` models a naive datetime, i.e. `tzinfo is None`). -/
structure PyDateTime where
  year : Nat
  month : Nat
  day : Nat
  hour : Nat
  minute : Nat
  second : Nat
  tz : Option Int
  deriving Repr, DecidableEq

/-- Days since 1970-01-01 of a civil date (proleptic Gregorian calendar),
the standard days-from-civil algorithm; models CPython's date ordinal up to
a constant shift. -/
def daysFromCivil (y m d : Int) : Int :=
  let y' : Int := if m ≤ 2 then y - 1 else y
  let era : Int := Int.fdiv y' 400
  let yoe : Int := y' - era * 400
  let mp : Int := Int.emod (m + 9) 12
  let doy : Int := Int.fdiv (153 * mp + 2) 5 + d - 1
  let doe : Int := yoe * 365 + Int.fdiv yoe 4 - Int.fdiv yoe 100 + doy
  era * 146097 + doe - 719468

/-- Seconds since the epoch of the UTC instant denoted by an aware
`PyDateTime` with offset `off` minutes: clock seconds minus the offset.
Python compares aware datetimes by exactly this absolute value. -/
def utcSeconds (t : PyDateTime) (off : Int) : Int :=
  daysFromCivil (t.year : Int) (t.month : Int) (t.day : Int) * 86400
    + (t.hour : Int) * 3600 + (t.minute : Int) * 60 + (t.second : Int) - off * 60

/-- Order key of a naive `PyDateTime`: Python compares naive datetimes
field-lexicographically, which this strictly monotone encoding realises for
in-range fields. -/
def naiveKey (t : PyDateTime) : Nat :=
  ((((t.year * 13 + t.month) * 32 + t.day) * 24 + t.hour) * 60 + t.minute) * 60
    + t.second

/-- Exceptions the embedded functions can raise. -/
inductive PyErr where
  /-- `KeyError`: dictionary subscript with an absent key. -/
  | keyError (key : String)
  /-- `TypeError`: unsupported operand types (e.g. comparing a datetime
  with `None`, or subscripting a non-dict). -/
  | typeError
  /-- `AttributeError`: attribute access on an object lacking it
  (e.g. `None.tzinfo`). -/
  | attributeError
  /-- `pytz.exceptions.UnknownTimeZoneError` raised by `pytz.timezone`. -/
  | unknownTimeZoneError (name : String)
  /-- `IndexError`: sequence subscript out of range. -/
  | indexError
  deriving Repr, DecidableEq

/-- Structured value produced by parsing JSON, as the day-cycle table is;
a Python dict is modelled by its ordered field list. -/
inductive Json where
  | obj (fields : List (String × Json))
  | arr (items : List Json)
  | str (s : String)
  | num (n : Int)
  | bool (b : Bool)
  | null
  deriving Repr

/-- Lookup of a key in a modelled dict, as Python `d[k]`:
`KeyError` when the key is absent. -/
def dictGet (fields : List (String × Json)) (k : String) : Except PyErr Json :=
  match fields.lookup k with
  | some v => .ok v
  | none => .error (.keyError k)

/-- Subscript `v[k]` on a structured value: dict lookup on a mapping,
`TypeError` otherwise (strings/numbers are not subscriptable by string). -/
def jsonIndex (v : Json) (k : String) : Except PyErr Json :=
  match v with
  | .obj fields => dictGet fields k
  | _ => .error .typeError

/-- Coercion of a structured value used in string concatenation, as
`'...' + v`: succeeds only on a string, `TypeError` otherwise. -/
def asPyStr (v : Json) : Except PyErr String :=
  match v with
  | .str s => .ok s
  | _ => .error .typeError

/-- Offset rule of a named timezone: the UTC offset in minutes the zone
puts in effect at a given local date/time.  Models one entry of the pytz
timezone database. -/
def TZRule : Type := PyDateTime → Int

/-- The pytz timezone database: zone-name lookup, `none` for an unknown
name (on which `pytz.timezone` raises `UnknownTimeZoneError`). -/
def TZEnv : Type := String → Option TZRule

/-- pytz `tz.localize(d)` on a naive `d`: attach the offset the zone's
rule puts in effect at `d`'s own calendar date/time, leaving every clock
field unchanged. -/
def localize (rule : TZRule) (d : PyDateTime) : PyDateTime :=
  { d with tz := some (rule d) }

/-- Value passed as `str_to_time`'s `tzsource` argument: Python allows
`None`, a zone-name string, a datetime, or (unchecked) anything else. -/
inductive TZSource where
  | none
  | name (s : String)
  | dt (d : PyDateTime)
  | other
  deriving Repr

/-- View of a structured value as a `tzsource` argument (the day-cycle
table's `timezone` entry is passed to `str_to_time` as-is). -/
def toTZSource (v : Json) : TZSource :=
  match v with
  | .str s => .name s
  | .null => .none
  | _ => .other

/-- Embedding of `utils.str_to_time(timestamp, tzsource=None)`.

```python
try:
    d = parse(timestamp)
except:
    return None
if d.tzinfo != None:
    return d
if d.tzinfo == None:
    if tzsource == None:
        return d
    if type(tzsource) == str:
        tz = pytz.timezone(tzsource)
        e = tz.localize(d)
        return e
    if type(tzsource) == datetime.datetime:
        f = d.replace(tzinfo=tzsource.tzinfo)
        return f
```

The library calls are explicit parameters: `parse` models
`dateutil.parser.parse` (`none` = the parser raised, caught by the bare
`except`), `env` models the pytz database. -/
def str_to_time (parse : String → Option PyDateTime) (env : TZEnv)
    (timestamp : String) (tzsource : TZSource) :
    Except PyErr (Option PyDateTime) :=
  match parse timestamp with
  | Option.none => .ok none
  | some d =>
    if d.tz.isSome then .ok (some d)
    else
      match tzsource with
      | .none => .ok (some d)
      | .name s =>
        match env s with
        | Option.none => .error (.unknownTimeZoneError s)
        | some rule => .ok (some (localize rule d))
      | .dt e => .ok (some { d with tz := e.tz })
      | .other => .ok none

/-- Python `a < b` on datetimes: aware–aware compares the absolute UTC
instants, naive–naive compares clock fields, mixed raises `TypeError`. -/
def pyLt (a b : PyDateTime) : Except PyErr Bool :=
  match a.tz, b.tz with
  | some oa, some ob => .ok (decide (utcSeconds a oa < utcSeconds b ob))
  | none, none => .ok (decide (naiveKey a < naiveKey b))
  | _, _ => .error .typeError

/-- Python `a > b`, `a <= b`, `a >= b` against an `Option` right operand:
`sunrise`/`sunset` in `daytime` are `str_to_time` results and may be
`None`, on which comparison raises `TypeError`. -/
def pyGtO (a : PyDateTime) (b : Option PyDateTime) : Except PyErr Bool :=
  match b with
  | some b' => pyLt b' a
  | none => .error .typeError

/-- Python `a < b` with an `Option` right operand. -/
def pyLtO (a : PyDateTime) (b : Option PyDateTime) : Except PyErr Bool :=
  match b with
  | some b' => pyLt a b'
  | none => .error .typeError

/-- Python `a <= b` with an `Option` right operand (`not (a > b)`). -/
def pyLeO (a : PyDateTime) (b : Option PyDateTime) : Except PyErr Bool :=
  match b with
  | some b' => (pyLt b' a).map (fun r => !r)
  | none => .error .typeError

/-- Python `a >= b` with an `Option` right operand (`not (a < b)`). -/
def pyGeO (a : PyDateTime) (b : Option PyDateTime) : Except PyErr Bool :=
  match b with
  | some b' => (pyLt a b').map (fun r => !r)
  | none => .error .typeError

/-- Left-pad a numeral to two digits, as `strftime` zero-padding does. -/
def pad2 (n : Nat) : String :=
  if n < 10 then "0" ++ toString n else toString n

/-- Left-pad a numeral to four digits, as `strftime('%Y')` does. -/
def pad4 (n : Nat) : String :=
  if n < 10 then "000" ++ toString n
  else if n < 100 then "00" ++ toString n
  else if n < 1000 then "0" ++ toString n
  else toString n

/-- `time.strftime('%Y')`. -/
def fmtY (t : PyDateTime) : String := pad4 t.year

/-- `time.strftime('%m-%d')`. -/
def fmtMMDD (t : PyDateTime) : String := pad2 t.month ++ "-" ++ pad2 t.day

/-- `time.strftime('%Y-%m-%d')`. -/
def fmtYMD (t : PyDateTime) : String :=
  pad4 t.year ++ "-" ++ pad2 t.month ++ "-" ++ pad2 t.day

/-- Number of days in a month of a given year (Gregorian rules),
used to validate parsed dates as `datetime` construction does. -/
def daysInMonth (y m : Nat) : Nat :=
  if m = 2 then
    if y % 4 = 0 && (y % 100 ≠ 0 || y % 400 = 0) then 29 else 28
  else if m = 4 || m = 6 || m = 9 || m = 11 then 30
  else 31

/-- Read one decimal digit. -/
def digitVal (c : Char) : Option Nat :=
  if c.isDigit then some (c.toNat - 48) else none

/-- Read exactly two decimal digits. -/
def readTwo : List Char → Option (Nat × List Char)
  | c1 :: c2 :: rest => do
    let d1 ← digitVal c1
    let d2 ← digitVal c2
    some (d1 * 10 + d2, rest)
  | _ => none

/-- Read exactly four decimal digits. -/
def readFour (cs : List Char) : Option (Nat × List Char) := do
  let (hi, cs1) ← readTwo cs
  let (lo, cs2) ← readTwo cs1
  some (hi * 100 + lo, cs2)

/-- Read an optional trailing UTC offset, `Z` or `±HH:MM`, in minutes. -/
def readOffset : List Char → Option (Option Int × List Char)
  | [] => some (none, [])
  | 'Z' :: rest => some (some 0, rest)
  | '+' :: rest => do
    let (h, cs1) ← readTwo rest
    match cs1 with
    | ':' :: cs2 => do
      let (m, cs3) ← readTwo cs2
      some (some ((h : Int) * 60 + (m : Int)), cs3)
    | _ => none
  | '-' :: rest => do
    let (h, cs1) ← readTwo rest
    match cs1 with
    | ':' :: cs2 => do
      let (m, cs3) ← readTwo cs2
      some (some (-((h : Int) * 60 + (m : Int))), cs3)
    | _ => none
  | _ => none

/-- Clock part `HH:MM` or `HH:MM:SS`, with an optional offset suffix. -/
def readClock (cs : List Char) : Option (Nat × Nat × Nat × Option Int) := do
  let (h, cs1) ← readTwo cs
  match cs1 with
  | ':' :: cs2 => do
    let (mi, cs3) ← readTwo cs2
    let (s, cs4) ←
      match cs3 with
      | ':' :: cs5 => do
        let (s, cs6) ← readTwo cs5
        some (s, cs6)
      | _ => some (0, cs3)
    let (off, cs7) ← readOffset cs4
    if cs7 = [] ∧ h < 24 ∧ mi < 60 ∧ s < 60 then some (h, mi, s, off) else none
  | _ => none

/-- Model of `dateutil.parser.parse` on the ISO-8601 timestamp forms this
module constructs and consumes (`YYYY-MM-DD`, optionally `THH:MM[:SS]` and
an offset suffix); `none` models the parser raising on anything it cannot
handle, which the caller's bare `except` turns into `None`. -/
def parseISO (ts : String) : Option PyDateTime :=
  match readFour ts.data with
  | some (y, '-' :: cs1) =>
    match readTwo cs1 with
    | some (mo, '-' :: cs2) =>
      match readTwo cs2 with
      | some (d, rest) =>
        if 1 ≤ mo ∧ mo ≤ 12 ∧ 1 ≤ d ∧ d ≤ daysInMonth y mo then
          match rest with
          | [] => some ⟨y, mo, d, 0, 0, 0, none⟩
          | 'T' :: cs3 =>
            match readClock cs3 with
            | some (h, mi, s, off) => some ⟨y, mo, d, h, mi, s, off⟩
            | none => none
          | _ => none
        else none
      | none => none
    | _ => none
  | _ => none

/-- Body shared by the two classification branches of `daytime`
(the source repeats it verbatim for the aware and the naive case):

```python
if t > sunrise and t < sunset:
    return True
if t <= sunrise or t >= sunset:
    return False
```

Short-circuit evaluation is preserved: the right operand of `and`/`or` is
only compared when the left one does not already decide the condition. -/
def dayCompare (t : PyDateTime) (sunrise sunset : Option PyDateTime) :
    Except PyErr (Option Bool) := do
  let c1 ← pyGtO t sunrise
  if c1 then do
    let c2 ← pyLtO t sunset
    if c2 then return (some true)
    else do
      let c3 ← pyLeO t sunrise
      if c3 then return (some false)
      else do
        let c4 ← pyGeO t sunset
        if c4 then return (some false) else return none
  else do
    let c3 ← pyLeO t sunrise
    if c3 then return (some false)
    else do
      let c4 ← pyGeO t sunset
      if c4 then return (some false) else return none

/-- Embedding of `utils.daytime(time, daycycle)`:

```python
year = time.strftime('%Y')
if year not in daycycle.keys():
    return None
if year in daycycle.keys():
    mm_dd = time.strftime('%m-%d')
    sr_time = daycycle[year][mm_dd]['sunrise']
    sr_tstamp = time.strftime('%Y-%m-%d') + 'T' + sr_time
    ss_time = daycycle[year][mm_dd]['sunset']
    ss_tstamp = time.strftime('%Y-%m-%d') + 'T' + ss_time
    tzsource = daycycle['timezone']
    sunrise = str_to_time(sr_tstamp, tzsource)
    sunset = str_to_time(ss_tstamp, tzsource)
    if time.tzinfo != None:
        if time > sunrise and time < sunset:
            return True
        if time <= sunrise or time >= sunset:
            return False
    if time.tzinfo == None:
        new_time = time.replace(tzinfo=sunrise.tzinfo)
        if new_time > sunrise and new_time < sunset:
            return True
        if new_time <= sunrise or new_time >= sunset:
            return False
```

Only the year key's presence is tested before the subscripts, so an absent
month-day key raises `KeyError` rather than returning `None`.  A `.ok none`
result models the explicit or fall-through `return None`. -/
def daytime (env : TZEnv) (time : PyDateTime) (daycycle : Json) :
    Except PyErr (Option Bool) :=
  match daycycle with
  | .obj fields =>
    let year := fmtY time
    if (fields.lookup year).isNone then .ok none
    else do
      let yv ← dictGet fields year
      let mm_dd := fmtMMDD time
      let dv ← jsonIndex yv mm_dd
      let srj ← jsonIndex dv "sunrise"
      let sr_time ← asPyStr srj
      let sr_tstamp := fmtYMD time ++ "T" ++ sr_time
      let dv' ← jsonIndex yv mm_dd
      let ssj ← jsonIndex dv' "sunset"
      let ss_time ← asPyStr ssj
      let ss_tstamp := fmtYMD time ++ "T" ++ ss_time
      let tzj ← dictGet fields "timezone"
      let tzsource := toTZSource tzj
      let sunrise ← str_to_time parseISO env sr_tstamp tzsource
      let sunset ← str_to_time parseISO env ss_tstamp tzsource
      if time.tz.isSome then
        dayCompare time sunrise sunset
      else do
        let stz ←
          match sunrise with
          | some sr => Except.ok sr.tz
          | Option.none => Except.error PyErr.attributeError
        let new_time := { time with tz := stz }
        dayCompare new_time sunrise sunset
  | _ => .error .typeError

/-- Scan tail of `get_for_id`: consecutive rows are tested in order and the
first whose cell 0 equals `id` is returned; `table[x][0]` on an empty row
raises `IndexError`. -/
def getForIdScan (id : String) : List (List String) →
    Except PyErr (Option (List String))
  | [] => .ok none
  | row :: rest =>
    match row.head? with
    | some cell =>
      if id = cell then .ok (some row) else getForIdScan id rest
    | Option.none => .error .indexError

/-- Embedding of `utils.get_for_id(id, table)`:

```python
for x in range(1, len(table)):
    if id == table[x][0]:
        return table[x]
return None
```

The loop index starts at 1, so row 0 is never examined. -/
def get_for_id (id : String) (table : List (List String)) :
    Except PyErr (Option (List String)) :=
  getForIdScan id (table.drop 1)

/-- Day of week of a civil date, 0 = Sunday (1970-01-01 was a Thursday). -/
def dayOfWeek (y m d : Int) : Int :=
  Int.emod (daysFromCivil y m d + 4) 7

/-- Day-of-month of the n-th Sunday of a month. -/
def nthSunday (y m n : Int) : Int :=
  1 + Int.emod (7 - dayOfWeek y m 1) 7 + 7 * (n - 1)

/-- Modelled from the pytz database entry for `America/New_York`
(post-2007 United States rule): offset -240 minutes (EDT) from the second
Sunday of March 02:00 to the first Sunday of November 02:00 local time,
offset -300 minutes (EST) otherwise. -/
def americaNewYork : TZRule := fun t =>
  let y : Int := t.year
  let m : Int := t.month
  let d : Int := t.day
  let marD := nthSunday y 3 2
  let novD := nthSunday y 11 1
  let afterStart : Bool :=
    decide (3 < m) || (decide (m = 3) &&
      (decide (marD < d) || (decide (d = marD) && decide (2 ≤ t.hour))))
  let beforeEnd : Bool :=
    decide (m < 11) || (decide (m = 11) &&
      (decide (d < novD) || (decide (d = novD) && decide (t.hour < 2))))
  if afterStart && beforeEnd then -240 else -300

/-- Modelled pytz database with the single zone the examples use. -/
def nyEnv : TZEnv := fun s =>
  if s = "America/New_York" then some americaNewYork else none

/-- The day-cycle table of the specification's example scenario. -/
def exampleTable : Json :=
  .obj [("2015", .obj [("06-05",
          .obj [("sunrise", .str "07:00"), ("sunset", .str "17:00")])]),
        ("timezone", .str "America/New_York")]

/-- Character that forces a field to be quoted under the csv module's
default `QUOTE_MINIMAL` dialect: the delimiter, the quote character, or a
line-terminator character. -/
def isSpecialChar (c : Char) : Bool :=
  c = ',' || c = '"' || c = '\r' || c = '\n'

/-- Double every quote character, the csv module's `doublequote` escaping. -/
def escapeQuotes : List Char → List Char
  | [] => []
  | c :: rest =>
    if c = '"' then '"' :: '"' :: escapeQuotes rest
    else c :: escapeQuotes rest

/-- Rendering of one field by `csv.writer` (`QUOTE_MINIMAL`): quoted with
doubled inner quotes when it contains a special character, verbatim
otherwise. -/
def renderCell (s : String) : List Char :=
  if s.data.any isSpecialChar then '"' :: (escapeQuotes s.data ++ ['"'])
  else s.data

/-- Comma-join of rendered fields. -/
def interComma : List (List Char) → List Char
  | [] => []
  | [x] => x
  | x :: xs => x ++ ',' :: interComma xs

/-- Rendering of one record by `csv.writer`: a lone empty field is written
as `""` (the csv module's guard against producing a blank line), otherwise
the comma-join of the rendered fields. -/
def renderRow (r : List String) : List Char :=
  if r = [""] then ['"', '"'] else interComma (r.map renderCell)

/-- Text `write_csv` produces for `data`: `writerow` is called on
`data[0] .. data[len(data)-1]` in order, each record followed by the
writer's default `\r\n` terminator. -/
def write_csv_text : List (List String) → List Char
  | [] => []
  | r :: rs => renderRow r ++ '\r' :: '\n' :: write_csv_text rs

/-- Universal-newlines translation applied by the text-mode file object
`read_csv` iterates: `\r\n` and a lone `\r` both become `\n`. -/
def univNewlines : List Char → List Char
  | [] => []
  | [c] => if c = '\r' then ['\n'] else [c]
  | c :: c2 :: rest =>
    if c = '\r' then
      if c2 = '\n' then '\n' :: univNewlines rest
      else '\n' :: univNewlines (c2 :: rest)
    else c :: univNewlines (c2 :: rest)

/-- Parser state of the csv module's record reader. -/
inductive CsvSt where
  /-- At the start of a record (nothing of it consumed yet). -/
  | recStart
  /-- At the start of a field after a delimiter. -/
  | fieldStart
  /-- Inside an unquoted field. -/
  | inField
  /-- Inside a quoted field. -/
  | inQuoted
  /-- Just after a quote character inside a quoted field. -/
  | quoteInQuoted
  deriving Repr, DecidableEq

/-- State machine of `csv.reader` (default dialect, non-strict) over the
translated character stream: `field` and `rec` accumulate the current
field and record.  A `\n` at `recStart` yields an empty record (a blank
line); a quote inside an unquoted field is kept literally; a doubled quote
inside a quoted field yields one quote; text after a closing quote is
appended to the field (non-strict behaviour). -/
def csvParse : List Char → CsvSt → List Char → List String →
    List (List String)
  | [], st, field, rec =>
    match st with
    | .recStart => []
    | .fieldStart => [rec ++ [""]]
    | _ => [rec ++ [String.mk field]]
  | c :: rest, .recStart, _, rec =>
    if c = '\n' then [] :: csvParse rest .recStart [] []
    else if c = '"' then csvParse rest .inQuoted [] rec
    else if c = ',' then csvParse rest .fieldStart [] (rec ++ [""])
    else csvParse rest .inField [c] rec
  | c :: rest, .fieldStart, _, rec =>
    if c = '\n' then (rec ++ [""]) :: csvParse rest .recStart [] []
    else if c = '"' then csvParse rest .inQuoted [] rec
    else if c = ',' then csvParse rest .fieldStart [] (rec ++ [""])
    else csvParse rest .inField [c] rec
  | c :: rest, .inField, field, rec =>
    if c = '\n' then (rec ++ [String.mk field]) :: csvParse rest .recStart [] []
    else if c = ',' then csvParse rest .fieldStart [] (rec ++ [String.mk field])
    else csvParse rest .inField (field ++ [c]) rec
  | c :: rest, .inQuoted, field, rec =>
    if c = '"' then csvParse rest .quoteInQuoted field rec
    else csvParse rest .inQuoted (field ++ [c]) rec
  | c :: rest, .quoteInQuoted, field, rec =>
    if c = '"' then csvParse rest .inQuoted (field ++ ['"']) rec
    else if c = ',' then csvParse rest .fieldStart [] (rec ++ [String.mk field])
    else if c = '\n' then
      (rec ++ [String.mk field]) :: csvParse rest .recStart [] []
    else csvParse rest .inField (field ++ [c]) rec

/-- Rows `read_csv` returns when the file holds the character stream `cs`:
every record the csv reader produces, in order, after the text-mode
newline translation. -/
def read_csv_text (cs : List Char) : List (List String) :=
  csvParse (univNewlines cs) .recStart [] []

/-- Outcome of one embedded call: a normal return or an exception that
propagated out of it. -/
inductive CallOutcome (α : Type) where
  | ret (val : α)
  | exn
  deriving Repr

/-- Modelled behaviour of the underlying stream during `read_csv`'s
iteration: the records the csv reader yields, and whether the iteration
then raises (an I/O or parse error) instead of finishing. -/
structure CsvReadBehavior where
  rows : List (List String)
  raisesMidIteration : Bool

/-- Handle lifecycle of `read_csv`:

```python
file = open(filename)
wrapper = csv.reader(file)
result = []
for row in wrapper:
    result.append(row)
file.close()
return result
```

The pair's second component records whether the handle opened by the call
is closed when the call exits.  No `try`/`finally` or `with` protects the
handle, so an exception raised during the iteration propagates before
`file.close()` runs. -/
def read_csv_handle (b : CsvReadBehavior) :
    CallOutcome (List (List String)) × Bool :=
  if b.raisesMidIteration then (.exn, false)
  else (.ret b.rows, true)

/-- Modelled behaviour of the stream during `write_csv`'s loop: whether
some `writerow` call raises mid-loop. -/
structure CsvWriteBehavior where
  raisesMidWrite : Bool

/-- Handle lifecycle of `write_csv`: `open(filename, 'w')`, the
`writerow` loop, then `file.close()` — again with no `try`/`finally`, so a
write error propagates with the handle open. -/
def write_csv_handle (b : CsvWriteBehavior) : CallOutcome Unit × Bool :=
  if b.raisesMidWrite then (.exn, false)
  else (.ret (), true)

/-- Modelled behaviour of `read_json`'s two fallible steps: whether
`file.read()` raises, and what `json.loads` yields on the text
(`none` = parse error raised). -/
structure JsonReadBehavior where
  readRaises : Bool
  parsed : Option Json

/-- Handle lifecycle of `read_json`:

```python
file = open(filename)
text = file.read()
file.close()
result = json.loads(text)
return result
```

`file.close()` runs before `json.loads`, so a JSON parse error propagates
only after the handle is closed; a `file.read()` error propagates with the
handle still open. -/
def read_json_handle (b : JsonReadBehavior) : CallOutcome Json × Bool :=
  if b.readRaises then (.exn, false)
  else
    match b.parsed with
    | some v => (.ret v, true)
    | none => (.exn, true)

/-- C2: for every timestamp string whose parse already carries explicit
timezone information and for every hint value (none, a zone-name string, an
instant, or anything else, including hints disagreeing with the embedded
zone), `str_to_time` returns the parsed instant unchanged; the hint has no
effect. -/
theorem str_to_time_explicit_zone_unchanged
    (parse : String → Option PyDateTime) (env : TZEnv) (ts : String)
    (hint : TZSource) (d : PyDateTime) (off : Int)
    (hparse : parse ts = some d) (htz : d.tz = some off) :
    str_to_time parse env ts hint = .ok (some d) := by
  unfold str_to_time
  rw [hparse]
  simp [htz]

/-- Witness for C2: a timestamp carrying the offset `-04:00` resolves to
the same instant under a disagreeing zone-name hint, an instant hint, and
no hint. -/
theorem str_to_time_explicit_zone_unchanged_witness :
    str_to_time parseISO nyEnv "2016-05-12T16:23-04:00"
        (.name "America/Chicago")
      = .ok (some ⟨2016, 5, 12, 16, 23, 0, some (-240)⟩)
    ∧ str_to_time parseISO nyEnv "2016-05-12T16:23-04:00"
        (.dt ⟨2016, 5, 12, 0, 0, 0, some (-300)⟩)
      = .ok (some ⟨2016, 5, 12, 16, 23, 0, some (-240)⟩)
    ∧ str_to_time parseISO nyEnv "2016-05-12T16:23-04:00" .none
      = .ok (some ⟨2016, 5, 12, 16, 23, 0, some (-240)⟩) :=
  ⟨str_to_time_explicit_zone_unchanged parseISO nyEnv "2016-05-12T16:23-04:00"
      (.name "America/Chicago") ⟨2016, 5, 12, 16, 23, 0, some (-240)⟩ (-240)
      rfl rfl,
   str_to_time_explicit_zone_unchanged parseISO nyEnv "2016-05-12T16:23-04:00"
      (.dt ⟨2016, 5, 12, 0, 0, 0, some (-300)⟩)
      ⟨2016, 5, 12, 16, 23, 0, some (-240)⟩ (-240) rfl rfl,
   str_to_time_explicit_zone_unchanged parseISO nyEnv "2016-05-12T16:23-04:00"
      .none ⟨2016, 5, 12, 16, 23, 0, some (-240)⟩ (-240) rfl rfl⟩

/-- C5: for every naive parsed timestamp and every zone-name hint known to
the timezone database, `str_to_time` returns an instant whose calendar and
clock fields are exactly the parsed ones and whose attached offset is the
one the named zone's rule puts in effect on that calendar date — the rule
is consulted at the parsed date itself, so dates on opposite sides of a
daylight-saving transition receive different offsets. -/
theorem str_to_time_naive_name_hint
    (parse : String → Option PyDateTime) (env : TZEnv) (ts zname : String)
    (rule : TZRule) (d : PyDateTime)
    (hparse : parse ts = some d) (htz : d.tz = none)
    (henv : env zname = some rule) :
    str_to_time parse env ts (.name zname)
      = .ok (some { d with tz := some (rule d) }) := by
  unfold str_to_time
  rw [hparse]
  simp [htz, henv, localize]

/-- Witness for C5: the same clock time in January and in July of 2018
localized to `America/New_York` receives offsets −300 (EST) and −240
(EDT) — the rule is applied per calendar date, across the DST transition. -/
theorem str_to_time_naive_name_hint_witness :
    str_to_time parseISO nyEnv "2018-01-15T09:00" (.name "America/New_York")
      = .ok (some ⟨2018, 1, 15, 9, 0, 0, some (-300)⟩)
    ∧ str_to_time parseISO nyEnv "2018-07-15T09:00" (.name "America/New_York")
      = .ok (some ⟨2018, 7, 15, 9, 0, 0, some (-240)⟩) :=
  ⟨(str_to_time_naive_name_hint parseISO nyEnv "2018-01-15T09:00"
      "America/New_York" americaNewYork
      ⟨2018, 1, 15, 9, 0, 0, none⟩ rfl rfl rfl).trans (by rfl),
   (str_to_time_naive_name_hint parseISO nyEnv "2018-07-15T09:00"
      "America/New_York" americaNewYork
      ⟨2018, 7, 15, 9, 0, 0, none⟩ rfl rfl rfl).trans (by rfl)⟩

/-- C7: for every input string the parser cannot handle, `str_to_time`
returns `None` — an ordinary value, not a raised exception — whatever the
hint argument is: the bare `except` around the parse call turns any parser
error into `return None` before the hint is ever examined. -/
theorem str_to_time_unparsable_none
    (parse : String → Option PyDateTime) (env : TZEnv) (ts : String)
    (hint : TZSource) (hparse : parse ts = none) :
    str_to_time parse env ts hint = .ok none := by
  unfold str_to_time
  rw [hparse]

/-- Witness for C7: an unparsable string yields `None` under every kind of
hint, including an unknown zone name — the hint is never consulted. -/
theorem str_to_time_unparsable_none_witness :
    str_to_time parseISO nyEnv "not a date" (.name "No/Such_Zone") = .ok none
    ∧ str_to_time parseISO nyEnv "2015-13-40T99:99" .none = .ok none :=
  ⟨str_to_time_unparsable_none parseISO nyEnv "not a date"
      (.name "No/Such_Zone") rfl,
   str_to_time_unparsable_none parseISO nyEnv "2015-13-40T99:99" .none rfl⟩

/-- Reduction of an `Except` bind on a success value. -/
theorem exceptBindOk {ε α β : Type} (a : α) (f : α → Except ε β) :
    (Except.ok a : Except ε α) >>= f = f a := rfl

/-- Reduction of an `Except` map on a success value. -/
theorem exceptMapOk {ε α β : Type} (f : α → β) (a : α) :
    Except.map f (Except.ok a : Except ε α) = Except.ok (f a) := rfl

/-- Reduction of `pure` into `Except.ok`. -/
theorem exceptPureOk {ε α : Type} (a : α) :
    (pure a : Except ε α) = Except.ok a := rfl

/-- Evaluation of the duplicated classification body on three aware
datetimes: assembling the four short-circuit comparisons always yields a
boolean, equal to "strictly after sunrise and strictly before sunset" on
the absolute UTC instants. -/
theorem dayCompare_eval (t a b : PyDateTime) (ot oa ob : Int)
    (ht : t.tz = some ot) (ha : a.tz = some oa) (hb : b.tz = some ob) :
    dayCompare t (some a) (some b)
      = .ok (some (decide (utcSeconds a oa < utcSeconds t ot
                           ∧ utcSeconds t ot < utcSeconds b ob))) := by
  by_cases h1 : utcSeconds a oa < utcSeconds t ot
  · by_cases h2 : utcSeconds t ot < utcSeconds b ob
    · simp [dayCompare, pyGtO, pyLtO, pyLeO, pyGeO, pyLt, ht, ha, hb,
        h1, h2, exceptBindOk, exceptMapOk, exceptPureOk]
    · simp [dayCompare, pyGtO, pyLtO, pyLeO, pyGeO, pyLt, ht, ha, hb,
        h1, h2, exceptBindOk, exceptMapOk, exceptPureOk]
  · simp [dayCompare, pyGtO, pyLtO, pyLeO, pyGeO, pyLt, ht, ha, hb,
      h1, exceptBindOk, exceptMapOk, exceptPureOk]

/-- Clock fields, and hence the absolute value at a given offset, are
unchanged by replacing the attached timezone. -/
theorem utcSeconds_replaceTz (d : PyDateTime) (v : Option Int) (o : Int) :
    utcSeconds { d with tz := v } o = utcSeconds d o := rfl

/-- Evaluation of `daytime` on a table carrying the instant's year and
month-day keys, sunrise/sunset strings the timestamp parser resolves, and
a zone name the database knows: the result is the boolean
`sunrise < instant < sunset` on absolute instants, where a naive instant
is given sunrise's attached offset without any change of clock fields
(`t.tz.getD (rule sr)` is the instant's own offset when aware and the
offset attached to sunrise when naive). -/
theorem daytime_eval (env : TZEnv) (rule : TZRule) (zname : String)
    (t sr ss : PyDateTime) (srs sss : String)
    (henv : env zname = some rule)
    (hsr : parseISO (fmtYMD t ++ "T" ++ srs) = some sr)
    (hsrn : sr.tz = none)
    (hss : parseISO (fmtYMD t ++ "T" ++ sss) = some ss)
    (hssn : ss.tz = none)
    (hy : fmtY t ≠ "timezone") :
    daytime env t (Json.obj [(fmtY t, Json.obj [(fmtMMDD t,
        Json.obj [("sunrise", .str srs), ("sunset", .str sss)])]),
        ("timezone", .str zname)])
      = .ok (some (decide
          (utcSeconds sr (rule sr) < utcSeconds t (t.tz.getD (rule sr))
           ∧ utcSeconds t (t.tz.getD (rule sr)) < utcSeconds ss (rule ss)))) := by
  have hbeq : (("timezone" : String) == fmtY t) = false := by
    simp [Ne.symm hy]
  have hss' : (("sunset" : String) == "sunrise") = false := by decide
  cases htz : t.tz with
  | none =>
    simp only [daytime, List.lookup, beq_self_eq_true, hbeq, if_true,
      if_false, Option.isNone_some, Bool.false_eq_true, dictGet, jsonIndex,
      asPyStr, toTZSource, str_to_time, localize, hss', hsr, hss, hsrn, hssn,
      henv, Option.isSome_none, Option.isSome_some, htz, exceptBindOk,
      exceptPureOk, Bool.true_eq_false, ite_false, ite_true]
    rw [dayCompare_eval { t with tz := some (rule sr) }
      { sr with tz := some (rule sr) } { ss with tz := some (rule ss) }
      (rule sr) (rule sr) (rule ss) rfl rfl rfl]
    simp [utcSeconds_replaceTz, htz]
  | some off =>
    simp only [daytime, List.lookup, beq_self_eq_true, hbeq, if_true,
      if_false, Option.isNone_some, Bool.false_eq_true, dictGet, jsonIndex,
      asPyStr, toTZSource, str_to_time, localize, hss', hsr, hss, hsrn, hssn,
      henv, Option.isSome_none, Option.isSome_some, htz, exceptBindOk,
      exceptPureOk, Bool.true_eq_false, ite_false, ite_true]
    rw [dayCompare_eval t
      { sr with tz := some (rule sr) } { ss with tz := some (rule ss) }
      off (rule sr) (rule ss) htz rfl rfl]
    simp [utcSeconds_replaceTz, htz]

/-- Reduction of an `Except` bind on an error value. -/
theorem exceptBindErr {ε α β : Type} (e : ε) (f : α → Except ε β) :
    (Except.error e : Except ε α) >>= f = Except.error e := rfl

/-- C1 (amended): for every instant whose year and month-day keys are
present in the day-cycle table (with resolvable sunrise/sunset entries and
a known zone), `daytime` returns true iff `sunrise < instant < sunset` on
absolute instants — both boundaries the same way: sunrise is *exclusive*,
not inclusive, and sunset is exclusive; an instant exactly at the table's
sunrise time classifies as false, exactly at sunset as false, one second
before sunrise as false, and one second before sunset as true. -/
theorem daytime_boundary_corrected (env : TZEnv) (rule : TZRule)
    (zname : String) (t sr ss : PyDateTime) (srs sss : String)
    (henv : env zname = some rule)
    (hsr : parseISO (fmtYMD t ++ "T" ++ srs) = some sr)
    (hsrn : sr.tz = none)
    (hss : parseISO (fmtYMD t ++ "T" ++ sss) = some ss)
    (hssn : ss.tz = none)
    (hy : fmtY t ≠ "timezone") :
    (daytime env t (Json.obj [(fmtY t, Json.obj [(fmtMMDD t,
          Json.obj [("sunrise", .str srs), ("sunset", .str sss)])]),
          ("timezone", .str zname)])
        = .ok (some true)
      ↔ (utcSeconds sr (rule sr) < utcSeconds t (t.tz.getD (rule sr))
         ∧ utcSeconds t (t.tz.getD (rule sr)) < utcSeconds ss (rule ss)))
    ∧ (daytime env t (Json.obj [(fmtY t, Json.obj [(fmtMMDD t,
          Json.obj [("sunrise", .str srs), ("sunset", .str sss)])]),
          ("timezone", .str zname)])
        = .ok (some false)
      ↔ ¬(utcSeconds sr (rule sr) < utcSeconds t (t.tz.getD (rule sr))
          ∧ utcSeconds t (t.tz.getD (rule sr)) < utcSeconds ss (rule ss))) := by
  rw [daytime_eval env rule zname t sr ss srs sss henv hsr hsrn hss hssn hy]
  by_cases hP : utcSeconds sr (rule sr) < utcSeconds t (t.tz.getD (rule sr))
      ∧ utcSeconds t (t.tz.getD (rule sr)) < utcSeconds ss (rule ss)
  · simp [decide_eq_true hP, hP]
  · simp [decide_eq_false hP, hP]

/-- Counterexample to C1 as stated: with the boundary table (sunrise
`07:00`, sunset `17:00` on 2015-06-05, zone `America/New_York`), the aware
instant at exactly `07:00` EDT — exactly the table's sunrise instant —
classifies as `false`, not `true`: the code tests `time > sunrise`, so the
sunrise boundary is exclusive, not inclusive as claimed. -/
theorem daytime_sunrise_boundary_cex :
    daytime nyEnv ⟨2015, 6, 5, 7, 0, 0, some (-240)⟩ exampleTable
      = .ok (some false) := by rfl

/-- Witness for C1 (amended), on the boundary table: one second before
sunset the aware instant classifies as true, and exactly at sunset as
false. -/
theorem daytime_boundary_corrected_witness :
    daytime nyEnv ⟨2015, 6, 5, 16, 59, 59, some (-240)⟩ exampleTable
      = .ok (some true)
    ∧ daytime nyEnv ⟨2015, 6, 5, 17, 0, 0, some (-240)⟩ exampleTable
      = .ok (some false) :=
  ⟨((daytime_boundary_corrected nyEnv americaNewYork "America/New_York"
      ⟨2015, 6, 5, 16, 59, 59, some (-240)⟩ ⟨2015, 6, 5, 7, 0, 0, none⟩
      ⟨2015, 6, 5, 17, 0, 0, none⟩ "07:00" "17:00"
      rfl (by decide) rfl (by decide) rfl (by decide)).1).mpr (by decide),
   ((daytime_boundary_corrected nyEnv americaNewYork "America/New_York"
      ⟨2015, 6, 5, 17, 0, 0, some (-240)⟩ ⟨2015, 6, 5, 7, 0, 0, none⟩
      ⟨2015, 6, 5, 17, 0, 0, none⟩ "07:00" "17:00"
      rfl (by decide) rfl (by decide) rfl (by decide)).2).mpr (by decide)⟩

/-- C3 (amended): `daytime` returns the explicit unknown value (`None`)
when the instant's four-digit year key is absent from the table; but when
the year key is present and the month-day key is absent from that year's
entries, it raises `KeyError` — the code only guards the year lookup, so
the month-day absence is an error, not `None`. -/
theorem daytime_missing_keys :
    (∀ (env : TZEnv) (t : PyDateTime) (fields : List (String × Json)),
      List.lookup (fmtY t) fields = none →
        daytime env t (.obj fields) = .ok none)
    ∧ (∀ (env : TZEnv) (t : PyDateTime) (fields : List (String × Json))
        (yfields : List (String × Json)),
      List.lookup (fmtY t) fields = some (.obj yfields) →
      List.lookup (fmtMMDD t) yfields = none →
        daytime env t (.obj fields)
          = .error (.keyError (fmtMMDD t))) := by
  constructor
  · intro env t fields h
    simp [daytime, h]
  · intro env t fields yfields hy hmd
    simp [daytime, hy, hmd, dictGet, jsonIndex, exceptBindOk, exceptBindErr]

/-- Counterexample to C3 as stated: on the example table, which has a
`2015` entry but no `06-06` entry, the instant 2015-06-06T07:30 produces a
`KeyError` — an error, not the claimed `None`. -/
theorem daytime_missing_monthday_cex :
    daytime nyEnv ⟨2015, 6, 6, 7, 30, 0, none⟩ exampleTable
      = .error (.keyError "06-06") := by rfl

/-- Witness for C3 (amended): a table without the needed year yields
`None`; a table with the year but without the month-day key raises
`KeyError`. -/
theorem daytime_missing_keys_witness :
    daytime nyEnv ⟨2014, 6, 5, 7, 30, 0, none⟩
        (.obj [("timezone", .str "America/New_York")]) = .ok none
    ∧ daytime nyEnv ⟨2015, 6, 5, 7, 30, 0, none⟩
        (.obj [("2015", .obj []), ("timezone", .str "America/New_York")])
      = .error (.keyError "06-05") :=
  ⟨daytime_missing_keys.1 nyEnv ⟨2014, 6, 5, 7, 30, 0, none⟩
      [("timezone", .str "America/New_York")] (by rfl),
   daytime_missing_keys.2 nyEnv ⟨2015, 6, 5, 7, 30, 0, none⟩
      [("2015", .obj []), ("timezone", .str "America/New_York")] []
      (by rfl) rfl⟩

/-- C6 (amended): an instant carrying no timezone of its own is
interpreted as already expressed in the table's declared timezone — the
zone's offset (as attached to sunrise) is adopted without shifting the
instant's clock fields before comparing.  On the example table the naive
instant `2015-06-05T17:00:00` classifies as false and `2015-06-05T06:59:59`
as false, but `2015-06-05T07:00:00` — exactly at sunrise — classifies as
*false*, not true as claimed, because the comparison against sunrise is
strict. -/
theorem daytime_naive_interpretation (env : TZEnv) (rule : TZRule)
    (zname : String) (t sr ss : PyDateTime) (srs sss : String)
    (henv : env zname = some rule)
    (hsr : parseISO (fmtYMD t ++ "T" ++ srs) = some sr)
    (hsrn : sr.tz = none)
    (hss : parseISO (fmtYMD t ++ "T" ++ sss) = some ss)
    (hssn : ss.tz = none)
    (hy : fmtY t ≠ "timezone")
    (htz : t.tz = none) :
    daytime env t (Json.obj [(fmtY t, Json.obj [(fmtMMDD t,
        Json.obj [("sunrise", .str srs), ("sunset", .str sss)])]),
        ("timezone", .str zname)])
      = .ok (some (decide
          (utcSeconds sr (rule sr) < utcSeconds t (rule sr)
           ∧ utcSeconds t (rule sr) < utcSeconds ss (rule ss)))) := by
  have h := daytime_eval env rule zname t sr ss srs sss henv hsr hsrn hss
    hssn hy
  rwa [htz, Option.getD_none] at h

/-- Counterexample to C6 as stated: the claim's own example — the naive
instant `2015-06-05T07:00:00` against the table with sunrise `07:00` —
classifies as `false`, whereas the claim states `true`. -/
theorem daytime_naive_sunrise_cex :
    daytime nyEnv ⟨2015, 6, 5, 7, 0, 0, none⟩ exampleTable
      = .ok (some false) := by rfl

/-- Witness for C6 (amended), on the example table with naive instants:
`17:00:00` is false, `06:59:59` is false, `07:00:01` is true (the zone is
attached without shifting the clock fields; the sunrise bound is strict). -/
theorem daytime_naive_interpretation_witness :
    daytime nyEnv ⟨2015, 6, 5, 17, 0, 0, none⟩ exampleTable
      = .ok (some false)
    ∧ daytime nyEnv ⟨2015, 6, 5, 6, 59, 59, none⟩ exampleTable
      = .ok (some false)
    ∧ daytime nyEnv ⟨2015, 6, 5, 7, 0, 1, none⟩ exampleTable
      = .ok (some true) :=
  ⟨(daytime_naive_interpretation nyEnv americaNewYork "America/New_York"
      ⟨2015, 6, 5, 17, 0, 0, none⟩ ⟨2015, 6, 5, 7, 0, 0, none⟩
      ⟨2015, 6, 5, 17, 0, 0, none⟩ "07:00" "17:00"
      rfl (by decide) rfl (by decide) rfl (by decide) rfl).trans (by rfl),
   (daytime_naive_interpretation nyEnv americaNewYork "America/New_York"
      ⟨2015, 6, 5, 6, 59, 59, none⟩ ⟨2015, 6, 5, 7, 0, 0, none⟩
      ⟨2015, 6, 5, 17, 0, 0, none⟩ "07:00" "17:00"
      rfl (by decide) rfl (by decide) rfl (by decide) rfl).trans (by rfl),
   (daytime_naive_interpretation nyEnv americaNewYork "America/New_York"
      ⟨2015, 6, 5, 7, 0, 1, none⟩ ⟨2015, 6, 5, 7, 0, 0, none⟩
      ⟨2015, 6, 5, 17, 0, 0, none⟩ "07:00" "17:00"
      rfl (by decide) rfl (by decide) rfl (by decide) rfl).trans (by rfl)⟩

/-- C10: when the instant's year and month-day keys are both present and
the sunrise and sunset entries resolve to instants (parseable time
strings, known zone), `daytime` returns a boolean — the comparison
branches are exhaustive over the total order on instants, so the implicit
fall-through `None` is unreachable. -/
theorem daytime_total_on_resolvable (env : TZEnv) (rule : TZRule)
    (zname : String) (t sr ss : PyDateTime) (srs sss : String)
    (henv : env zname = some rule)
    (hsr : parseISO (fmtYMD t ++ "T" ++ srs) = some sr)
    (hsrn : sr.tz = none)
    (hss : parseISO (fmtYMD t ++ "T" ++ sss) = some ss)
    (hssn : ss.tz = none)
    (hy : fmtY t ≠ "timezone") :
    ∃ b : Bool,
      daytime env t (Json.obj [(fmtY t, Json.obj [(fmtMMDD t,
          Json.obj [("sunrise", .str srs), ("sunset", .str sss)])]),
          ("timezone", .str zname)])
        = .ok (some b) :=
  ⟨_, daytime_eval env rule zname t sr ss srs sss henv hsr hsrn hss hssn hy⟩

/-- Witness for C10: at a concrete aware instant off the boundaries the
classification is a boolean. -/
theorem daytime_total_on_resolvable_witness :
    ∃ b : Bool,
      daytime nyEnv ⟨2015, 6, 5, 2, 0, 0, some 0⟩ exampleTable
        = .ok (some b) :=
  daytime_total_on_resolvable nyEnv americaNewYork "America/New_York"
    ⟨2015, 6, 5, 2, 0, 0, some 0⟩ ⟨2015, 6, 5, 7, 0, 0, none⟩
    ⟨2015, 6, 5, 17, 0, 0, none⟩ "07:00" "17:00"
    rfl (by decide) rfl (by decide) rfl (by decide)

/-- Scan tail evaluated as a first-match search: on rows that are all
nonempty, the scan returns the first row whose cell 0 equals the
identifier, or `None`. -/
theorem getForIdScan_eq_find (id : String) :
    ∀ rows : List (List String), (∀ r ∈ rows, r ≠ []) →
      getForIdScan id rows
        = .ok (rows.find? fun r => r.head? == some id) := by
  intro rows
  induction rows with
  | nil => intro _; rfl
  | cons r rest ih =>
    intro hne
    cases r with
    | nil => exact absurd rfl (hne [] (List.mem_cons_self _ _))
    | cons c cs =>
      by_cases hc : id = c
      · subst hc
        simp [getForIdScan, List.find?]
      · have hne' : ∀ r ∈ rest, r ≠ [] := fun r hr =>
          hne r (List.mem_cons_of_mem _ hr)
        have hcb : ((c :: cs).head? == some id) = false := by
          simp [List.head?]
          exact fun h => hc h.symm
        have hci : (c == id) = false :=
          beq_eq_false_iff_ne.mpr fun h => hc h.symm
        simp [getForIdScan, hc, List.find?, hcb, hci, ih hne']

/-- C4 (amended): `get_for_id` never examines row 0 — the loop starts at
index 1, treating the first row as a header — and over the remaining rows
(all nonempty) it returns the first, in row order, whose column-0 cell
equals the identifier exactly; it returns `None`, not an error, when no
row from index 1 on matches, even if row 0 would have matched. -/
theorem get_for_id_skips_header (id : String) (hdr : List String)
    (body : List (List String)) (hne : ∀ r ∈ body, r ≠ []) :
    get_for_id id (hdr :: body)
      = .ok (body.find? fun r => r.head? == some id) := by
  unfold get_for_id
  rw [List.drop_one, List.tail_cons]
  exact getForIdScan_eq_find id body hne

/-- Counterexample to C4 as stated: the identifier `a` occurs in row 0 of
the table, yet the scan reports no match — row 0 is skipped, contradicting
"scans the table top-to-bottom skipping no rows". -/
theorem get_for_id_first_row_cex :
    get_for_id "a" [["a", "x"], ["b", "y"]] = .ok none := by rfl

/-- Witness for C4 (amended): with two matching rows below the header the
earlier one is returned. -/
theorem get_for_id_skips_header_witness :
    get_for_id "b" [["hdr"], ["b", "1"], ["b", "2"]] = .ok (some ["b", "1"]) :=
  (get_for_id_skips_header "b" ["hdr"] [["b", "1"], ["b", "2"]]
    (by intro r hr; fin_cases hr <;> simp)).trans (by rfl)

/-- C9 (amended): every handle is closed on every normally-returning
path, and `read_json` closes its handle even when JSON parsing fails
(parsing happens after the close); but none of the calls protects the
handle with a scoped construct, so an I/O or iteration error raised before
the close propagates with the handle still open. -/
theorem handles_closed_normal_paths :
    (∀ b : CsvReadBehavior, b.raisesMidIteration = false →
      (read_csv_handle b).2 = true)
    ∧ (∀ b : CsvWriteBehavior, b.raisesMidWrite = false →
      (write_csv_handle b).2 = true)
    ∧ (∀ b : JsonReadBehavior, b.readRaises = false →
      (read_json_handle b).2 = true) := by
  refine ⟨fun b h => ?_, fun b h => ?_, fun b h => ?_⟩
  · simp [read_csv_handle, h]
  · simp [write_csv_handle, h]
  · cases hp : b.parsed <;> simp [read_json_handle, h, hp]

/-- Counterexample to C9 as stated: when the csv iteration raises,
`read_csv` exits by exception with its handle still open — there is an
exit path that leaks the handle. -/
theorem read_csv_handle_leak_cex :
    (read_csv_handle ⟨[], true⟩).2 = false := by rfl

/-- Witness for C9 (amended): concrete normal-path behaviours close the
handle, including `read_json` on a parse failure. -/
theorem handles_closed_normal_paths_witness :
    (read_csv_handle ⟨[["a"]], false⟩).2 = true
    ∧ (write_csv_handle ⟨false⟩).2 = true
    ∧ (read_json_handle ⟨false, none⟩).2 = true :=
  ⟨handles_closed_normal_paths.1 ⟨[["a"]], false⟩ rfl,
   handles_closed_normal_paths.2.1 ⟨false⟩ rfl,
   handles_closed_normal_paths.2.2 ⟨false, none⟩ rfl⟩

/-- Rebuilding a string from its own character list gives it back. -/
theorem stringMk_data (s : String) : String.mk s.data = s := rfl

/-- Newline translation steps over a character other than `\r`. -/
theorem univNewlines_cons_ne (c : Char) (l : List Char) (h : ¬c = '\r') :
    univNewlines (c :: l) = c :: univNewlines l := by
  cases l with
  | nil => simp [univNewlines, h]
  | cons d rest => simp [univNewlines, h]

/-- Newline translation rewrites a `\r\n` pair to `\n`. -/
theorem univNewlines_crlf (l : List Char) :
    univNewlines ('\r' :: '\n' :: l) = '\n' :: univNewlines l := by
  simp [univNewlines]

/-- Newline translation passes over a carriage-return-free prefix and
rewrites the `\r\n` terminator that follows it. -/
theorem univNewlines_append_safe (rest : List Char) :
    ∀ pre : List Char, (∀ c ∈ pre, ¬c = '\r') →
      univNewlines (pre ++ '\r' :: '\n' :: rest)
        = pre ++ '\n' :: univNewlines rest := by
  intro pre
  induction pre with
  | nil => intro _; simpa using univNewlines_crlf rest
  | cons c pre' ih =>
    intro h
    have hc : ¬c = '\r' := h c (List.mem_cons_self _ _)
    have h' : ∀ d ∈ pre', ¬d = '\r' := fun d hd =>
      h d (List.mem_cons_of_mem _ hd)
    simp only [List.cons_append, univNewlines_cons_ne c _ hc, ih h']

/-- Characters of an escaped field are characters of the field or quotes. -/
theorem mem_escapeQuotes (c : Char) :
    ∀ l : List Char, c ∈ escapeQuotes l → c ∈ l ∨ c = '"' := by
  intro l
  induction l with
  | nil => intro h; simp [escapeQuotes] at h
  | cons d rest ih =>
    intro h
    by_cases hd : d = '"'
    · subst hd
      simp only [escapeQuotes, if_pos rfl] at h
      rcases List.mem_cons.mp h with h1 | h
      · exact Or.inr h1
      rcases List.mem_cons.mp h with h1 | h
      · exact Or.inr h1
      rcases ih h with h2 | h2
      · exact Or.inl (List.mem_cons_of_mem _ h2)
      · exact Or.inr h2
    · simp only [escapeQuotes, if_neg hd] at h
      rcases List.mem_cons.mp h with h1 | h
      · exact Or.inl (h1 ▸ List.mem_cons_self _ _)
      rcases ih h with h2 | h2
      · exact Or.inl (List.mem_cons_of_mem _ h2)
      · exact Or.inr h2

/-- Characters of a rendered field are characters of the field or quotes. -/
theorem mem_renderCell (c : Char) (s : String) (h : c ∈ renderCell s) :
    c ∈ s.data ∨ c = '"' := by
  unfold renderCell at h
  by_cases hq : s.data.any isSpecialChar = true
  · rw [if_pos hq] at h
    rcases List.mem_cons.mp h with h1 | h
    · exact Or.inr h1
    rcases List.mem_append.mp h with h2 | h2
    · exact mem_escapeQuotes c s.data h2
    · simp only [List.mem_singleton] at h2
      exact Or.inr h2
  · rw [if_neg hq] at h
    exact Or.inl h

/-- Characters of a comma-join come from the parts or are commas. -/
theorem mem_interComma (c : Char) :
    ∀ ls : List (List Char), c ∈ interComma ls →
      (∃ l ∈ ls, c ∈ l) ∨ c = ',' := by
  intro ls
  induction ls with
  | nil => intro h; simp [interComma] at h
  | cons x xs ih =>
    intro h
    cases xs with
    | nil =>
      refine Or.inl ⟨x, List.mem_cons_self _ _, ?_⟩
      simpa [interComma] using h
    | cons y ys =>
      simp only [interComma] at h
      rcases List.mem_append.mp h with h1 | h1
      · exact Or.inl ⟨x, List.mem_cons_self _ _, h1⟩
      rcases List.mem_cons.mp h1 with h2 | h2
      · exact Or.inr h2
      rcases ih h2 with ⟨l, hl, hcl⟩ | h3
      · exact Or.inl ⟨l, List.mem_cons_of_mem _ hl, hcl⟩
      · exact Or.inr h3

/-- A record rendered from carriage-return-free fields contains no
carriage return: its characters are field characters, quotes, or commas. -/
theorem renderRow_no_cr (r : List String)
    (h : ∀ s ∈ r, ∀ c ∈ s.data, ¬c = '\r' ∧ ¬c = '\n') :
    ∀ c ∈ renderRow r, ¬c = '\r' := by
  intro c hc
  unfold renderRow at hc
  by_cases hr : r = [""]
  · rw [if_pos hr] at hc
    rcases List.mem_cons.mp hc with h1 | h1
    · subst h1; decide
    · simp only [List.mem_singleton] at h1
      subst h1; decide
  · rw [if_neg hr] at hc
    rcases mem_interComma c (r.map renderCell) hc with ⟨l, hl, hcl⟩ | h1
    · rcases List.mem_map.mp hl with ⟨s, hs, rfl⟩
      rcases mem_renderCell c s hcl with h2 | h2
      · exact (h s hs c h2).1
      · subst h2; decide
    · subst h1; decide

/-- Reader step: any character at record start other than a newline, a
quote, or a comma begins an unquoted field. -/
theorem csvParse_recStart_other (c : Char) (rest : List Char)
    (f : List Char) (rec : List String)
    (h1 : ¬c = '\n') (h2 : ¬c = '"') (h3 : ¬c = ',') :
    csvParse (c :: rest) .recStart f rec
      = csvParse rest .inField [c] rec := by
  simp [csvParse, h1, h2, h3]

/-- Reader step: a comma at record start yields an empty first field. -/
theorem csvParse_recStart_comma (rest : List Char) (f : List Char)
    (rec : List String) :
    csvParse (',' :: rest) .recStart f rec
      = csvParse rest .fieldStart [] (rec ++ [""]) := by
  simp [csvParse]

/-- Reader step: a quote at record start opens a quoted field. -/
theorem csvParse_recStart_quote (rest : List Char) (f : List Char)
    (rec : List String) :
    csvParse ('"' :: rest) .recStart f rec
      = csvParse rest .inQuoted [] rec := by
  simp [csvParse]

/-- Reader step: a newline at record start emits a blank record. -/
theorem csvParse_recStart_nl (rest : List Char) (f : List Char)
    (rec : List String) :
    csvParse ('\n' :: rest) .recStart f rec
      = [] :: csvParse rest .recStart [] [] := by
  simp [csvParse]

/-- Reader step: an ordinary character at field start begins the field. -/
theorem csvParse_fieldStart_other (c : Char) (rest : List Char)
    (f : List Char) (rec : List String)
    (h1 : ¬c = '\n') (h2 : ¬c = '"') (h3 : ¬c = ',') :
    csvParse (c :: rest) .fieldStart f rec
      = csvParse rest .inField [c] rec := by
  simp [csvParse, h1, h2, h3]

/-- Reader step: a comma at field start yields an empty field. -/
theorem csvParse_fieldStart_comma (rest : List Char) (f : List Char)
    (rec : List String) :
    csvParse (',' :: rest) .fieldStart f rec
      = csvParse rest .fieldStart [] (rec ++ [""]) := by
  simp [csvParse]

/-- Reader step: a quote at field start opens a quoted field. -/
theorem csvParse_fieldStart_quote (rest : List Char) (f : List Char)
    (rec : List String) :
    csvParse ('"' :: rest) .fieldStart f rec
      = csvParse rest .inQuoted [] rec := by
  simp [csvParse]

/-- Reader step: a newline at field start closes the record with a final
empty field. -/
theorem csvParse_fieldStart_nl (rest : List Char) (f : List Char)
    (rec : List String) :
    csvParse ('\n' :: rest) .fieldStart f rec
      = (rec ++ [""]) :: csvParse rest .recStart [] [] := by
  simp [csvParse]

/-- Reader step: an ordinary character inside an unquoted field is
accumulated. -/
theorem csvParse_inField_other (c : Char) (rest : List Char)
    (f : List Char) (rec : List String) (h1 : ¬c = '\n') (h3 : ¬c = ',') :
    csvParse (c :: rest) .inField f rec
      = csvParse rest .inField (f ++ [c]) rec := by
  simp [csvParse, h1, h3]

/-- Reader step: a comma inside an unquoted field closes the field. -/
theorem csvParse_inField_comma (rest : List Char) (f : List Char)
    (rec : List String) :
    csvParse (',' :: rest) .inField f rec
      = csvParse rest .fieldStart [] (rec ++ [String.mk f]) := by
  simp [csvParse]

/-- Reader step: a newline inside an unquoted field closes the record. -/
theorem csvParse_inField_nl (rest : List Char) (f : List Char)
    (rec : List String) :
    csvParse ('\n' :: rest) .inField f rec
      = (rec ++ [String.mk f]) :: csvParse rest .recStart [] [] := by
  simp [csvParse]

/-- Reader step: a quote inside a quoted field defers to the next
character. -/
theorem csvParse_inQuoted_quote (rest : List Char) (f : List Char)
    (rec : List String) :
    csvParse ('"' :: rest) .inQuoted f rec
      = csvParse rest .quoteInQuoted f rec := by
  simp [csvParse]

/-- Reader step: any other character inside a quoted field is
accumulated. -/
theorem csvParse_inQuoted_other (c : Char) (rest : List Char)
    (f : List Char) (rec : List String) (h : ¬c = '"') :
    csvParse (c :: rest) .inQuoted f rec
      = csvParse rest .inQuoted (f ++ [c]) rec := by
  simp [csvParse, h]

/-- Reader step: a second quote inside a quoted field is a literal quote. -/
theorem csvParse_quoteInQuoted_quote (rest : List Char) (f : List Char)
    (rec : List String) :
    csvParse ('"' :: rest) .quoteInQuoted f rec
      = csvParse rest .inQuoted (f ++ ['"']) rec := by
  simp [csvParse]

/-- Reader step: a comma after a closing quote ends the field. -/
theorem csvParse_quoteInQuoted_comma (rest : List Char) (f : List Char)
    (rec : List String) :
    csvParse (',' :: rest) .quoteInQuoted f rec
      = csvParse rest .fieldStart [] (rec ++ [String.mk f]) := by
  simp [csvParse]

/-- Reader step: a newline after a closing quote ends the record. -/
theorem csvParse_quoteInQuoted_nl (rest : List Char) (f : List Char)
    (rec : List String) :
    csvParse ('\n' :: rest) .quoteInQuoted f rec
      = (rec ++ [String.mk f]) :: csvParse rest .recStart [] [] := by
  simp [csvParse]

/-- The reader accumulates a run of non-special characters into the
current unquoted field. -/
theorem csvParse_plain_consume (rest : List Char) (rec : List String) :
    ∀ s : List Char, (∀ c ∈ s, isSpecialChar c = false) →
      ∀ f : List Char,
        csvParse (s ++ rest) .inField f rec
          = csvParse rest .inField (f ++ s) rec := by
  intro s
  induction s with
  | nil => intro _ f; simp
  | cons c cs ih =>
    intro h f
    have hc : isSpecialChar c = false := h c (List.mem_cons_self _ _)
    have hcs : ∀ d ∈ cs, isSpecialChar d = false := fun d hd =>
      h d (List.mem_cons_of_mem _ hd)
    have hn : ¬c = '\n' := by
      intro e; subst e; simp [isSpecialChar] at hc
    have hcm : ¬c = ',' := by
      intro e; subst e; simp [isSpecialChar] at hc
    rw [List.cons_append, csvParse_inField_other c _ f rec hn hcm,
      ih hcs (f ++ [c])]
    simp [List.append_assoc]

/-- The reader turns the escaped content of a quoted field, up to the
closing quote, back into the original content. -/
theorem csvParse_quoted_consume (rest : List Char) (rec : List String) :
    ∀ s : List Char, ∀ f : List Char,
      csvParse (escapeQuotes s ++ '"' :: rest) .inQuoted f rec
        = csvParse rest .quoteInQuoted (f ++ s) rec := by
  intro s
  induction s with
  | nil =>
    intro f
    rw [escapeQuotes, List.nil_append, csvParse_inQuoted_quote]
    simp
  | cons c cs ih =>
    intro f
    by_cases hc : c = '"'
    · subst hc
      rw [escapeQuotes, if_pos rfl, List.cons_append, List.cons_append,
        csvParse_inQuoted_quote, csvParse_quoteInQuoted_quote, ih (f ++ ['"'])]
      simp [List.append_assoc]
    · rw [escapeQuotes, if_neg hc, List.cons_append,
        csvParse_inQuoted_other c _ f rec hc, ih (f ++ [c])]
      simp [List.append_assoc]

/-- Parsing one rendered field followed by a comma, from a field boundary,
recovers the field and moves to the next field boundary. -/
theorem csvParse_cell_comma (rest : List Char) (rec : List String)
    (s : String) (hs : ∀ c ∈ s.data, ¬c = '\r' ∧ ¬c = '\n')
    (st : CsvSt) (f : List Char)
    (hst : st = .fieldStart ∨ st = .recStart) :
    csvParse (renderCell s ++ ',' :: rest) st f rec
      = csvParse rest .fieldStart [] (rec ++ [s]) := by
  unfold renderCell
  by_cases hq : s.data.any isSpecialChar = true
  · rw [if_pos hq, List.cons_append, List.append_assoc,
      List.singleton_append]
    have hstep : csvParse ('"' :: (escapeQuotes s.data ++ '"' :: ',' :: rest))
        st f rec
        = csvParse (escapeQuotes s.data ++ '"' :: ',' :: rest) .inQuoted
            [] rec := by
      rcases hst with rfl | rfl
      · exact csvParse_fieldStart_quote _ _ _
      · exact csvParse_recStart_quote _ _ _
    rw [hstep, csvParse_quoted_consume, csvParse_quoteInQuoted_comma]
    simp [stringMk_data]
  · rw [if_neg hq]
    have hall : ∀ c ∈ s.data, isSpecialChar c = false := by
      intro c hcm
      by_contra hne
      exact hq (List.any_eq_true.mpr ⟨c, hcm, by
        cases h : isSpecialChar c
        · exact absurd h hne
        · rfl⟩)
    obtain ⟨l⟩ := s
    cases hd : l with
    | nil =>
      subst hd
      have hstep : csvParse ([] ++ ',' :: rest) st f rec
          = csvParse rest .fieldStart [] (rec ++ [""]) := by
        rcases hst with rfl | rfl
        · exact csvParse_fieldStart_comma _ _ _
        · exact csvParse_recStart_comma _ _ _
      rw [hstep]
    | cons c cs =>
      subst hd
      have hc : isSpecialChar c = false := hall c (List.mem_cons_self _ _)
      have hcs : ∀ d ∈ cs, isSpecialChar d = false := fun d hd' =>
        hall d (List.mem_cons_of_mem _ hd')
      have hn : ¬c = '\n' := by
        intro e; subst e; simp [isSpecialChar] at hc
      have hqc : ¬c = '"' := by
        intro e; subst e; simp [isSpecialChar] at hc
      have hcm : ¬c = ',' := by
        intro e; subst e; simp [isSpecialChar] at hc
      have hstep : csvParse ((c :: cs) ++ ',' :: rest) st f rec
          = csvParse (cs ++ ',' :: rest) .inField [c] rec := by
        rcases hst with rfl | rfl
        · exact csvParse_fieldStart_other c _ f rec hn hqc hcm
        · exact csvParse_recStart_other c _ f rec hn hqc hcm
      rw [hstep, csvParse_plain_consume _ _ cs hcs [c],
        csvParse_inField_comma, List.singleton_append]

/-- Parsing one rendered field followed by a newline recovers the field
and closes the record (from record start only for a nonempty field, whose
rendering cannot begin with the newline). -/
theorem csvParse_cell_nl (rest : List Char) (rec : List String)
    (s : String) (hs : ∀ c ∈ s.data, ¬c = '\r' ∧ ¬c = '\n')
    (st : CsvSt) (f : List Char)
    (hst : st = .fieldStart ∨ (st = .recStart ∧ ¬s = "")) :
    csvParse (renderCell s ++ '\n' :: rest) st f rec
      = (rec ++ [s]) :: csvParse rest .recStart [] [] := by
  unfold renderCell
  by_cases hq : s.data.any isSpecialChar = true
  · rw [if_pos hq, List.cons_append, List.append_assoc,
      List.singleton_append]
    have hstep : csvParse ('"' :: (escapeQuotes s.data ++ '"' :: '\n' :: rest))
        st f rec
        = csvParse (escapeQuotes s.data ++ '"' :: '\n' :: rest) .inQuoted
            [] rec := by
      rcases hst with rfl | ⟨rfl, _⟩
      · exact csvParse_fieldStart_quote _ _ _
      · exact csvParse_recStart_quote _ _ _
    rw [hstep, csvParse_quoted_consume, csvParse_quoteInQuoted_nl]
    simp [stringMk_data]
  · rw [if_neg hq]
    have hall : ∀ c ∈ s.data, isSpecialChar c = false := by
      intro c hcm
      by_contra hne
      exact hq (List.any_eq_true.mpr ⟨c, hcm, by
        cases h : isSpecialChar c
        · exact absurd h hne
        · rfl⟩)
    obtain ⟨l⟩ := s
    cases hd : l with
    | nil =>
      subst hd
      rcases hst with rfl | ⟨rfl, hne⟩
      · rw [List.nil_append, csvParse_fieldStart_nl]
      · exact absurd rfl hne
    | cons c cs =>
      subst hd
      have hc : isSpecialChar c = false := hall c (List.mem_cons_self _ _)
      have hcs : ∀ d ∈ cs, isSpecialChar d = false := fun d hd' =>
        hall d (List.mem_cons_of_mem _ hd')
      have hn : ¬c = '\n' := by
        intro e; subst e; simp [isSpecialChar] at hc
      have hqc : ¬c = '"' := by
        intro e; subst e; simp [isSpecialChar] at hc
      have hcm : ¬c = ',' := by
        intro e; subst e; simp [isSpecialChar] at hc
      have hstep : csvParse ((c :: cs) ++ '\n' :: rest) st f rec
          = csvParse (cs ++ '\n' :: rest) .inField [c] rec := by
        rcases hst with rfl | ⟨rfl, _⟩
        · exact csvParse_fieldStart_other c _ f rec hn hqc hcm
        · exact csvParse_recStart_other c _ f rec hn hqc hcm
      rw [hstep, csvParse_plain_consume _ _ cs hcs [c], csvParse_inField_nl,
        List.singleton_append]

/-- Parsing a comma-joined tail of rendered fields followed by a newline,
from a field boundary, recovers the fields and closes the record. -/
theorem csvParse_cells (rest : List Char) :
    ∀ cells : List String, ¬cells = [] →
      (∀ s ∈ cells, ∀ c ∈ s.data, ¬c = '\r' ∧ ¬c = '\n') →
      ∀ rec : List String,
        csvParse (interComma (cells.map renderCell) ++ '\n' :: rest)
            .fieldStart [] rec
          = (rec ++ cells) :: csvParse rest .recStart [] [] := by
  intro cells
  induction cells with
  | nil => intro h; exact absurd rfl h
  | cons s cs ih =>
    intro _ hok rec
    have hs : ∀ c ∈ s.data, ¬c = '\r' ∧ ¬c = '\n' := fun c hc =>
      hok s (List.mem_cons_self _ _) c hc
    cases cs with
    | nil =>
      simp only [List.map_cons, List.map_nil, interComma]
      rw [csvParse_cell_nl rest rec s hs .fieldStart [] (Or.inl rfl)]
    | cons s2 cs2 =>
      have hok' : ∀ x ∈ s2 :: cs2, ∀ c ∈ x.data, ¬c = '\r' ∧ ¬c = '\n' :=
        fun x hx => hok x (List.mem_cons_of_mem _ hx)
      simp only [List.map_cons, interComma, List.append_assoc,
        List.cons_append, List.nil_append]
      rw [csvParse_cell_comma (interComma (renderCell s2 ::
            cs2.map renderCell) ++ '\n' :: rest) rec s hs .fieldStart []
          (Or.inl rfl)]
      have := ih (by simp) hok' (rec ++ [s])
      simp only [List.map_cons] at this
      rw [this, List.append_assoc, List.singleton_append]

/-- Parsing one rendered record (newline-terminated) from record start
recovers the record. -/
theorem csvParse_row (rest : List Char) (r : List String)
    (hok : ∀ s ∈ r, ∀ c ∈ s.data, ¬c = '\r' ∧ ¬c = '\n') :
    csvParse (renderRow r ++ '\n' :: rest) .recStart [] []
      = r :: csvParse rest .recStart [] [] := by
  unfold renderRow
  by_cases hr : r = [""]
  · rw [if_pos hr]
    subst hr
    rw [List.cons_append, List.cons_append, List.nil_append,
      csvParse_recStart_quote, csvParse_inQuoted_quote,
      csvParse_quoteInQuoted_nl]
    rfl
  · rw [if_neg hr]
    cases r with
    | nil =>
      simp only [List.map_nil, interComma, List.nil_append]
      rw [csvParse_recStart_nl]
    | cons s cs =>
      have hs : ∀ c ∈ s.data, ¬c = '\r' ∧ ¬c = '\n' := fun c hc =>
        hok s (List.mem_cons_self _ _) c hc
      cases cs with
      | nil =>
        have hne : ¬s = "" := by
          intro e; subst e; exact hr rfl
        simp only [List.map_cons, List.map_nil, interComma]
        rw [csvParse_cell_nl rest [] s hs .recStart []
          (Or.inr ⟨rfl, hne⟩), List.nil_append]
      | cons s2 cs2 =>
        have hok' : ∀ x ∈ s2 :: cs2, ∀ c ∈ x.data, ¬c = '\r' ∧ ¬c = '\n' :=
          fun x hx => hok x (List.mem_cons_of_mem _ hx)
        simp only [List.map_cons, interComma, List.append_assoc,
          List.cons_append, List.nil_append]
        rw [csvParse_cell_comma (interComma (renderCell s2 ::
              cs2.map renderCell) ++ '\n' :: rest) [] s hs .recStart []
            (Or.inr rfl)]
        have := csvParse_cells rest (s2 :: cs2) (by simp) hok' [s]
        simp only [List.map_cons] at this
        rw [List.nil_append, this, List.singleton_append]

/-- C8: writing a tabular dataset with `write_csv` and reading it back
with `read_csv` yields exactly the original rows, cell for cell, in the
original row and column order, for every dataset of string cells free of
embedded control characters (no carriage returns or newlines inside a
cell); commas and quotes are protected by the writer's quoting and
restored by the reader, and the text layer's newline translation only
touches the writer's record terminators. -/
theorem csv_round_trip :
    ∀ rows : List (List String),
      (∀ r ∈ rows, ∀ s ∈ r, ∀ c ∈ s.data, ¬c = '\r' ∧ ¬c = '\n') →
      read_csv_text (write_csv_text rows) = rows := by
  intro rows
  induction rows with
  | nil => intro _; rfl
  | cons r rs ih =>
    intro hok
    have h1 : ∀ s ∈ r, ∀ c ∈ s.data, ¬c = '\r' ∧ ¬c = '\n' := fun s hs =>
      hok r (List.mem_cons_self _ _) s hs
    have h2 : ∀ x ∈ rs, ∀ s ∈ x, ∀ c ∈ s.data, ¬c = '\r' ∧ ¬c = '\n' :=
      fun x hx => hok x (List.mem_cons_of_mem _ hx)
    show csvParse (univNewlines (write_csv_text (r :: rs))) .recStart [] []
      = r :: rs
    rw [write_csv_text,
      univNewlines_append_safe (write_csv_text rs) (renderRow r)
        (renderRow_no_cr r h1),
      csvParse_row (univNewlines (write_csv_text rs)) r h1]
    exact congrArg (r :: ·) (ih h2)

/-- Witness for C8: a dataset exercising quoting (embedded commas and
quotes), empty cells, an empty row, and a lone-empty-cell row survives the
write/read round trip. -/
theorem csv_round_trip_witness :
    read_csv_text (write_csv_text
        [["id", "name"], ["a,b", "say \"hi\"", ""], [], [""]])
      = [["id", "name"], ["a,b", "say \"hi\"", ""], [], [""]] :=
  csv_round_trip [["id", "name"], ["a,b", "say \"hi\"", ""], [], [""]]
    (by decide)
